import Mathlib

/-!
Verification of the uhid keyboard emulator (src/uhid-example.c).

The development shallowly embeds the pure core of the program:
the ASCII-to-HID mapping, the escape-sequence buffer, the pressed-key
tracker, the 8-byte input-report codec, the per-byte translator loop of
the keyboard function, and the dispatch loop of main.  Bytes are
modelled as Nat (all relevant values fit in 0..255), byte arrays as
List Nat, and the global mutable state of the C program as an explicit
KbState value threaded through the functions.
-/

namespace Uhid

/-- Global keyboard state of the program (src/uhid-example.c lines 240-247):
modifier_keys bitfield, the key_codes array of 6 slots together with
num_keys_pressed, and the escape buffer (we keep the meaningful prefix
escape_buf[0 .. escape_len-1] as a list; stale bytes past escape_len are
never read by the program). -/
structure KbState where
  modifier_keys : Nat
  key_codes : List Nat
  num_keys_pressed : Nat
  escape : List Nat
deriving Repr, DecidableEq

/-- Initial state: all globals are zero-initialised. -/
def initState : KbState :=
  { modifier_keys := 0, key_codes := [0, 0, 0, 0, 0, 0],
    num_keys_pressed := 0, escape := [] }

/-- ascii_to_hid (lines 285-331): map an ASCII byte to a HID usage code,
0 meaning no mapping.  Character constants are written as their ASCII
values: a=97, z=122, A=65, Z=90, digits 48-57, space 32, newline 10,
carriage return 13, backspace 8, tab 9, ESC 27. -/
def ascii_to_hid (c : Nat) : Nat :=
  if 97 ≤ c ∧ c ≤ 122 then 0x04 + (c - 97)
  else if 65 ≤ c ∧ c ≤ 90 then 0x04 + (c - 65)
  else if 49 ≤ c ∧ c ≤ 57 then 0x1e + (c - 49)
  else if c = 48 then 0x27
  else if c = 32 then 0x2c
  else if c = 10 ∨ c = 13 then 0x28
  else if c = 8 then 0x2a
  else if c = 9 then 0x2b
  else if c = 27 then 0x29
  else if c = 33 then 0x1e  -- exclamation mark
  else if c = 64 then 0x1f  -- at sign
  else if c = 35 then 0x20  -- hash
  else if c = 36 then 0x21  -- dollar
  else if c = 37 then 0x22  -- percent
  else if c = 94 then 0x23  -- caret
  else if c = 38 then 0x24  -- ampersand
  else if c = 42 then 0x25  -- asterisk
  else if c = 40 then 0x26  -- left parenthesis
  else if c = 41 then 0x27  -- right parenthesis
  else if c = 45 then 0x2d  -- minus
  else if c = 61 then 0x2e  -- equals
  else if c = 91 then 0x2f  -- left bracket
  else if c = 93 then 0x30  -- right bracket
  else if c = 92 then 0x31  -- backslash
  else if c = 59 then 0x33  -- semicolon
  else if c = 39 then 0x34  -- apostrophe character
  else if c = 96 then 0x35  -- grave accent
  else if c = 44 then 0x36  -- comma
  else if c = 46 then 0x37  -- dot
  else if c = 47 then 0x38  -- slash
  else 0

/-- process_escape_sequence (lines 334-351): if the buffer holds at least
3 bytes starting with ESC and a left bracket, try to resolve the third
byte to an arrow usage code; on success the buffer length is reset to 0.
Returns the new buffer together with the resolved code (0 = none). -/
def process_escape_sequence (buf : List Nat) : List Nat × Nat :=
  if 3 ≤ buf.length ∧ buf.getD 0 0 = 27 ∧ buf.getD 1 0 = 91 then
    let hid_code : Nat :=
      if buf.getD 2 0 = 65 then 0x52
      else if buf.getD 2 0 = 66 then 0x51
      else if buf.getD 2 0 = 67 then 0x4f
      else if buf.getD 2 0 = 68 then 0x50
      else 0
    if hid_code ≠ 0 then ([], hid_code) else (buf, 0)
  else (buf, 0)

/-- add_to_escape_buf (lines 354-362): append a byte if fewer than
sizeof(escape_buf) - 1 = 7 bytes are buffered, otherwise reset. -/
def add_to_escape_buf (buf : List Nat) (c : Nat) : List Nat :=
  if buf.length < 7 then buf ++ [c] else []

/-- add_key (lines 365-374): no-op if 6 keys are pressed or the code is
already among the first num_keys_pressed entries; otherwise store the
code in the next slot and increment the count. -/
def add_key (st : KbState) (hid_code : Nat) : KbState :=
  if 6 ≤ st.num_keys_pressed then st
  else if hid_code ∈ st.key_codes.take st.num_keys_pressed then st
  else { st with key_codes := st.key_codes.set st.num_keys_pressed hid_code,
                 num_keys_pressed := st.num_keys_pressed + 1 }

/-- The inner loop of remove_key: delete the first occurrence of the code
from the pressed prefix, shifting the later entries left; none if the
code is absent. -/
def remove_pressed : List Nat → Nat → Option (List Nat)
  | [], _ => none
  | x :: xs, code =>
      if x = code then some xs
      else (remove_pressed xs code).map (fun l => x :: l)

/-- remove_key (lines 377-391): remove the first occurrence of the code
from the pressed prefix, shift the remaining pressed keys left, zero the
vacated slot (the entry at the new num_keys_pressed), decrement the
count, and leave the slots past the old count untouched. -/
def remove_key (st : KbState) (hid_code : Nat) : KbState :=
  match remove_pressed (st.key_codes.take st.num_keys_pressed) hid_code with
  | none => st
  | some kept =>
      { st with
        key_codes := kept ++ [0] ++ st.key_codes.drop st.num_keys_pressed,
        num_keys_pressed := st.num_keys_pressed - 1 }

/-- clear_keys (lines 394-399): full reset of the tracker. -/
def clear_keys (st : KbState) : KbState :=
  { st with key_codes := [0, 0, 0, 0, 0, 0], num_keys_pressed := 0,
            modifier_keys := 0 }

/-- The 8 data bytes of the input report built by send_event
(lines 249-282): modifier bitfield, reserved 0, then the 6 key slots:
zeroed and then the first min(num_keys_pressed, 6) entries of key_codes. -/
def send_event_report (st : KbState) : List Nat :=
  let copy_len := if 6 < st.num_keys_pressed then 6 else st.num_keys_pressed
  st.modifier_keys :: 0 ::
    (st.key_codes.take copy_len ++ List.replicate (6 - copy_len) 0)

/-- The shift condition of the keyboard loop (lines 470-471 and 481-482):
the source byte is an uppercase ASCII letter and the resolved code is not
one of the four arrow codes. -/
def needsShift (c hid : Nat) : Bool :=
  (decide (65 ≤ c) && decide (c ≤ 90)) &&
    !(hid == 0x52 || hid == 0x51 || hid == 0x4f || hid == 0x50)

/-- The emission tail of the keyboard loop body (lines 469-485): assert
left shift if needed, press the key, emit a report, release the key,
clear shift if it was asserted, emit a second report.  Returns the new
state and the two emitted report byte strings in order. -/
def emit_key (st : KbState) (c hid : Nat) : KbState × List (List Nat) :=
  let st1 := if needsShift c hid then
               { st with modifier_keys := st.modifier_keys ||| 0x02 }
             else st
  let st2 := add_key st1 hid
  let r1 := send_event_report st2
  let st3 := remove_key st2 hid
  let st4 := if needsShift c hid then
               { st3 with modifier_keys := st3.modifier_keys &&& 0xfd }
             else st3
  let r2 := send_event_report st4
  (st4, [r1, r2])

/-- One iteration of the for loop in keyboard (lines 415-486) for the
byte c; rest is the remainder of the current chunk, consulted only for
the one-byte lookahead buf[i+1] at line 439.  Returns the new state and
the reports written for this byte (empty when the loop continues without
emitting). -/
def key_step (st : KbState) (c : Nat) (rest : List Nat) : KbState × List (List Nat) :=
  if st.escape.length ≠ 0 then
    if (process_escape_sequence (add_to_escape_buf st.escape c)).2 = 0 then
      ({ st with escape := (process_escape_sequence (add_to_escape_buf st.escape c)).1 }, [])
    else
      emit_key
        { st with escape := (process_escape_sequence (add_to_escape_buf st.escape c)).1 }
        c (process_escape_sequence (add_to_escape_buf st.escape c)).2
  else if c = 27 ∧ rest.head? = some 91 then
    ({ st with escape := add_to_escape_buf st.escape c }, [])
  else
    if ascii_to_hid c = 0 then (st, [])
    else emit_key st c (ascii_to_hid c)

/-- The for loop of keyboard over one chunk of bytes read from stdin. -/
def keyboard_bytes : KbState → List Nat → KbState × List (List Nat)
  | st, [] => (st, [])
  | st, c :: rest =>
    let s := key_step st c rest
    let k := keyboard_bytes s.1 rest
    (k.1, s.2 ++ k.2)

/-- Successive invocations of keyboard, one chunk per stdin readiness. -/
def keyboard_chunks : KbState → List (List Nat) → KbState × List (List Nat)
  | st, [] => (st, [])
  | st, ch :: rest =>
    let k := keyboard_bytes st ch
    let r := keyboard_chunks k.1 rest
    (r.1, k.2 ++ r.2)

/-- Report type tag UHID_OUTPUT_REPORT of enum uhid_report_type from the
kernel header linux/uhid.h included by the program. -/
def UHID_OUTPUT_REPORT : Nat := 1

/-- handle_output (lines 177-192): decode the LED flags byte of an
OUTPUT event.  The event payload is its report type, its byte length and
its data buffer.  The flags byte data[1] is produced only when the
report type is UHID_OUTPUT_REPORT, the length is exactly 2 and data[0]
is the LED report id 2; every other payload is ignored. -/
def handle_output (rtype sz : Nat) (data : List Nat) : Option Nat :=
  if rtype ≠ UHID_OUTPUT_REPORT then none
  else if sz ≠ 2 then none
  else if data.getD 0 0 ≠ 2 then none
  else some (data.getD 1 0)

/-- rdesc (lines 102-126): the report descriptor blob, a Lean constant
like the static array in the source. -/
def rdesc : List Nat :=
  [0x05, 0x01, 0x09, 0x06, 0xa1, 0x01, 0x05, 0x07, 0x19, 0xe0,
   0x29, 0xe7, 0x15, 0x00, 0x25, 0x01, 0x75, 0x01, 0x95, 0x08,
   0x81, 0x02, 0x95, 0x01, 0x75, 0x08, 0x81, 0x01, 0x95, 0x06,
   0x75, 0x08, 0x15, 0x00, 0x25, 0x65, 0x05, 0x07, 0x19, 0x00,
   0x29, 0x65, 0x81, 0x00, 0xc0]

/-- Bus type BUS_USB from the kernel header linux/input.h. -/
def BUS_USB : Nat := 3

/-- Payload of the UHID_CREATE event. -/
structure CreateEvent where
  name : String
  rd_data : List Nat
  rd_size : Nat
  bus : Nat
  vendor : Nat
  product : Nat
  version : Nat
  country : Nat
deriving Repr, DecidableEq

/-- create (lines 145-161): the Create event handed to the device. -/
def create_event : CreateEvent :=
  { name := "test-uhid-device", rd_data := rdesc, rd_size := rdesc.length,
    bus := BUS_USB, vendor := 0x15d9, product := 0x0a37,
    version := 0, country := 0 }

/-- Device events read from the uhid character device, as classified by
the switch in event (lines 213-235).  Only the Output payload carries
data the program inspects. -/
inductive DeviceEvent where
  | startEv
  | stopEv
  | openEv
  | closeEv
  | output (rtype : Nat) (sz : Nat) (data : List Nat)
  | outputEv
  | unknown (tag : Nat)
deriving Repr, DecidableEq

/-- Outcome of the read(2) call on the uhid device performed by event
(lines 200-211): end of stream (0 bytes), a syscall failure with an
errno, a short read of n bytes, or one full record. -/
inductive DevRead where
  | hup
  | fail (errno : Nat)
  | short (n : Nat)
  | ok (ev : DeviceEvent)
deriving Repr, DecidableEq

def EFAULT : Nat := 14

def EXIT_SUCCESS : Nat := 0

/-- Return value of event (lines 194-238): minus EFAULT on a zero-byte
read, minus errno on a read failure, minus EFAULT on a short read, and
0 for every full record regardless of its type tag. -/
def event_result (r : DevRead) : Int :=
  match r with
  | DevRead.hup => -(EFAULT : Int)
  | DevRead.fail e => -(e : Int)
  | DevRead.short _ => -(EFAULT : Int)
  | DevRead.ok _ => 0

/-- Outcome of the read(2) call on stdin performed by keyboard
(lines 406-413). -/
inductive KbRead where
  | hup
  | fail (errno : Nat)
  | chunk (bytes : List Nat)
deriving Repr, DecidableEq

/-- keyboard (lines 401-489): its return value together with the state
change and the reports written while processing the chunk. -/
def keyboard_result (st : KbState) (r : KbRead) : KbState × List (List Nat) × Int :=
  match r with
  | KbRead.hup => (st, [], -(EFAULT : Int))
  | KbRead.fail e => (st, [], -(e : Int))
  | KbRead.chunk bs =>
      let k := keyboard_bytes st bs
      (k.1, k.2, 0)

/-- One wakeup of the poll loop in main (lines 539-564): the error and
hang-up conditions reported by poll, and the data available on each of
the two sources when readable. -/
structure PollResult where
  pollErr : Bool
  hupStdin : Bool
  hupDev : Bool
  stdinIn : Option KbRead
  devIn : Option DevRead
deriving Repr, DecidableEq

/-- The body of one iteration of the while loop in main: break on a poll
error or a hang-up; otherwise run keyboard when stdin is readable and
break if it fails, then run event when the device is readable and break
if it fails.  Returns the new state, the reports written, and whether
the loop breaks. -/
def loop_step (st : KbState) (p : PollResult) : KbState × List (List Nat) × Bool :=
  if p.pollErr ∨ p.hupStdin ∨ p.hupDev then (st, [], true)
  else
    let kb : KbState × List (List Nat) × Int := match p.stdinIn with
      | none => (st, [], (0 : Int))
      | some r => keyboard_result st r
    if kb.2.2 ≠ 0 then (kb.1, kb.2.1, true)
    else
      let dret : Int := match p.devIn with
        | none => 0
        | some r => event_result r
      (kb.1, kb.2.1, dret != 0)

/-- The while loop of main over a script of poll wakeups.  The Bool
records whether the loop exited through a break. -/
def run_loop : KbState → List PollResult → KbState × List (List Nat) × Bool
  | st, [] => (st, [], false)
  | st, p :: rest =>
    let s := loop_step st p
    if s.2.2 then (s.1, s.2.1, true)
    else
      let r := run_loop s.1 rest
      (r.1, s.2.1 ++ r.2.1, r.2.2)

/-- A write issued to the uhid device after creation: an input report or
the Destroy event written by destroy (lines 163-171). -/
inductive UhidWrite where
  | inputW (data : List Nat)
  | destroyW
deriving Repr, DecidableEq

/-- main after a successful create (lines 539-568): run the loop; once
it breaks, write one Destroy event and exit with EXIT_SUCCESS.  Yields
none when the script ends without a break (the program is still waiting
in poll), otherwise the whole write trace and the exit code. -/
def run_main (script : List PollResult) : Option (List UhidWrite × Nat) :=
  match run_loop initState script with
  | (_, reps, true) => some (reps.map UhidWrite.inputW ++ [UhidWrite.destroyW], EXIT_SUCCESS)
  | (_, _, false) => none

/-- Tracker part of the state is empty: no pressed keys, no modifier,
all six key slots zero. -/
def trackerEmpty (st : KbState) : Prop :=
  st.modifier_keys = 0 ∧ st.num_keys_pressed = 0 ∧ st.key_codes = [0, 0, 0, 0, 0, 0]

/-- Trace consisting of a press report and an all-zero release report
for each pair (modifier byte, key code) in the list. -/
def trace_of (l : List (Nat × Nat)) : List (List Nat) :=
  (l.map fun mk => [[mk.1, 0, mk.2, 0, 0, 0, 0, 0], [0, 0, 0, 0, 0, 0, 0, 0]]).flatten

/-! Helper lemmas about lists and about the translator state. -/

theorem take_succ_set (l : List Nat) (n a : Nat) (h : n < l.length) :
    (l.set n a).take (n + 1) = l.take n ++ [a] := by
  induction l generalizing n with
  | nil => simp at h
  | cons x xs ih =>
    cases n with
    | zero => simp
    | succ m =>
      simp only [List.set_cons_succ, List.take_succ_cons, List.cons_append]
      rw [ih m (by simpa using h)]

theorem drop_succ_set (l : List Nat) (n a : Nat) :
    (l.set n a).drop (n + 1) = l.drop (n + 1) := by
  induction l generalizing n with
  | nil => simp
  | cons x xs ih =>
    cases n with
    | zero => simp
    | succ m =>
      simpa only [List.set_cons_succ, List.drop_succ_cons] using ih m

theorem remove_pressed_append (l : List Nat) (code : Nat) (h : code ∉ l) :
    remove_pressed (l ++ [code]) code = some l := by
  induction l with
  | nil => simp [remove_pressed]
  | cons x xs ih =>
    have hx : x ≠ code := fun he => h (he ▸ List.mem_cons_self x xs)
    simp only [List.cons_append, remove_pressed, if_neg hx, List.append_eq,
      ih (fun hm => h (List.mem_cons_of_mem _ hm)), Option.map_some']

theorem foldl_add_key_count (l : List Nat) :
    ∀ st : KbState, st.key_codes.length = 6 → st.num_keys_pressed ≤ 6 →
      l.Nodup → (∀ c ∈ l, c ∉ st.key_codes.take st.num_keys_pressed) →
      (l.foldl add_key st).num_keys_pressed = min (st.num_keys_pressed + l.length) 6 := by
  induction l with
  | nil =>
    intro st _ h2 _ _
    simp only [List.foldl_nil, List.length_nil, Nat.add_zero]
    exact (Nat.min_eq_left h2).symm
  | cons c cs ih =>
    intro st hlen hle hnd hmem
    rw [List.foldl_cons]
    by_cases h6 : 6 ≤ st.num_keys_pressed
    · have hadd : add_key st c = st := by simp [add_key, h6]
      rw [hadd, ih st hlen hle hnd.of_cons
        (fun x hx => hmem x (List.mem_cons_of_mem _ hx))]
      rw [Nat.min_eq_right (by omega), Nat.min_eq_right (by omega)]
    · push_neg at h6
      have hc : c ∉ st.key_codes.take st.num_keys_pressed :=
        hmem c (List.mem_cons_self _ _)
      have hadd : add_key st c =
          { st with key_codes := st.key_codes.set st.num_keys_pressed c,
                    num_keys_pressed := st.num_keys_pressed + 1 } := by
        simp [add_key, Nat.not_le.mpr h6, hc]
      have hmem2 : ∀ x ∈ cs,
          x ∉ (st.key_codes.set st.num_keys_pressed c).take (st.num_keys_pressed + 1) := by
        intro x hx
        rw [take_succ_set st.key_codes st.num_keys_pressed c (by omega)]
        simp only [List.mem_append, List.mem_singleton]
        rintro (hin | rfl)
        · exact hmem x (List.mem_cons_of_mem _ hx) hin
        · exact (List.nodup_cons.mp hnd).1 hx
      have hres := ih { st with key_codes := st.key_codes.set st.num_keys_pressed c,
                                num_keys_pressed := st.num_keys_pressed + 1 }
        (by simp [hlen]) (Nat.succ_le_of_lt h6) hnd.of_cons hmem2
      rw [hadd, hres, List.length_cons]
      dsimp only
      congr 1
      omega

theorem trace_of_cons (mk : Nat × Nat) (l : List (Nat × Nat)) :
    trace_of (mk :: l) =
      [mk.1, 0, mk.2, 0, 0, 0, 0, 0] :: [0, 0, 0, 0, 0, 0, 0, 0] :: trace_of l := by
  simp [trace_of]

theorem trace_of_append (l1 l2 : List (Nat × Nat)) :
    trace_of (l1 ++ l2) = trace_of l1 ++ trace_of l2 := by
  simp [trace_of]

theorem emit_key_of_empty (st : KbState) (c hid : Nat) (h : trackerEmpty st) :
    emit_key st c hid =
      (st, [[(if needsShift c hid then 2 else 0), 0, hid, 0, 0, 0, 0, 0],
            [0, 0, 0, 0, 0, 0, 0, 0]]) := by
  obtain ⟨m, l, n, esc⟩ := st
  obtain ⟨h1, h2, h3⟩ := h
  simp only at h1 h2 h3
  subst h1; subst h2; subst h3
  cases hs : needsShift c hid with
  | false =>
    simp [emit_key, hs, add_key, remove_key, remove_pressed, send_event_report]
  | true =>
    simp [emit_key, hs, add_key, remove_key, remove_pressed, send_event_report]
    decide

theorem key_step_of_empty (st : KbState) (c : Nat) (rest : List Nat) (h : trackerEmpty st) :
    trackerEmpty (key_step st c rest).1 ∧
    ((key_step st c rest).2 = [] ∨
      ∃ mk : Nat × Nat, (key_step st c rest).2 =
        [[mk.1, 0, mk.2, 0, 0, 0, 0, 0], [0, 0, 0, 0, 0, 0, 0, 0]]) := by
  unfold key_step
  split_ifs with h1 h2 h3 h4
  · exact ⟨h, Or.inl rfl⟩
  · rw [emit_key_of_empty
        { st with escape := (process_escape_sequence (add_to_escape_buf st.escape c)).1 }
        c (process_escape_sequence (add_to_escape_buf st.escape c)).2 h]
    exact ⟨h, Or.inr ⟨(if needsShift c
        (process_escape_sequence (add_to_escape_buf st.escape c)).2 then 2 else 0,
      (process_escape_sequence (add_to_escape_buf st.escape c)).2), rfl⟩⟩
  · exact ⟨h, Or.inl rfl⟩
  · exact ⟨h, Or.inl rfl⟩
  · rw [emit_key_of_empty st c (ascii_to_hid c) h]
    exact ⟨h, Or.inr ⟨(if needsShift c (ascii_to_hid c) then 2 else 0,
      ascii_to_hid c), rfl⟩⟩

theorem keyboard_bytes_of_empty (bs : List Nat) :
    ∀ st : KbState, trackerEmpty st →
      trackerEmpty (keyboard_bytes st bs).1 ∧
      ∃ l : List (Nat × Nat), (keyboard_bytes st bs).2 = trace_of l := by
  induction bs with
  | nil => exact fun st h => ⟨h, [], rfl⟩
  | cons c rest ih =>
    intro st h
    obtain ⟨hstep, hrep⟩ := key_step_of_empty st c rest h
    obtain ⟨hrec, l, hl⟩ := ih (key_step st c rest).1 hstep
    constructor
    · simpa [keyboard_bytes] using hrec
    · rcases hrep with he | ⟨mk, hmk⟩
      · exact ⟨l, by simp [keyboard_bytes, he, hl]⟩
      · exact ⟨mk :: l, by simp [keyboard_bytes, hmk, hl, trace_of_cons]⟩

theorem keyboard_chunks_of_empty (chunks : List (List Nat)) :
    ∀ st : KbState, trackerEmpty st →
      trackerEmpty (keyboard_chunks st chunks).1 ∧
      ∃ l : List (Nat × Nat), (keyboard_chunks st chunks).2 = trace_of l := by
  induction chunks with
  | nil => exact fun st h => ⟨h, [], rfl⟩
  | cons ch rest ih =>
    intro st h
    obtain ⟨h1, l1, hl1⟩ := keyboard_bytes_of_empty ch st h
    obtain ⟨h2, l2, hl2⟩ := ih _ h1
    refine ⟨by simpa [keyboard_chunks] using h2, ⟨l1 ++ l2, ?_⟩⟩
    simp [keyboard_chunks, hl1, hl2, trace_of_append]

/-! Theorems for the specification claims. -/

/-- C1 (counterexample): with the escape buffer holding exactly
ESC, left bracket and the third byte Z (90), the program produces no
usage code, but contrary to the claim the buffer is NOT reset to length
0: process_escape_sequence leaves it untouched, and the keyboard loop
keeps the three buffered bytes. -/
theorem C1_counterexample :
    (process_escape_sequence [27, 91, 90]).2 = 0 ∧
    (process_escape_sequence [27, 91, 90]).1 = [27, 91, 90] ∧
    (keyboard_bytes { initState with escape := [27, 91] } [90]).1.escape = [27, 91, 90] ∧
    (keyboard_bytes { initState with escape := [27, 91] } [90]).2 = [] := by
  decide

set_option maxRecDepth 4000 in
/-- C1 (amended): for every escape buffer holding exactly ESC, left
bracket and a third byte X, if X is one of A, B, C, D (65-68) the
translator resolves it to the arrow usage codes 0x52, 0x51, 0x4f, 0x50
respectively and resets the buffer length to 0; for every other third
byte no usage code is produced and no report is emitted, and the buffer
keeps its three bytes (it is not reset; it is only discarded later by
the overflow rule of add_to_escape_buf). -/
theorem C1_escape_third_byte :
    ∀ x : Nat, x < 256 →
      (process_escape_sequence [27, 91, x] =
        if x = 65 then ([], 0x52)
        else if x = 66 then ([], 0x51)
        else if x = 67 then ([], 0x4f)
        else if x = 68 then ([], 0x50)
        else ([27, 91, x], 0)) ∧
      ((keyboard_bytes { initState with escape := [27, 91] } [x]).1.escape =
        if x = 65 ∨ x = 66 ∨ x = 67 ∨ x = 68 then [] else [27, 91, x]) ∧
      ((keyboard_bytes { initState with escape := [27, 91] } [x]).2 =
        if x = 65 then [[0, 0, 0x52, 0, 0, 0, 0, 0], [0, 0, 0, 0, 0, 0, 0, 0]]
        else if x = 66 then [[0, 0, 0x51, 0, 0, 0, 0, 0], [0, 0, 0, 0, 0, 0, 0, 0]]
        else if x = 67 then [[0, 0, 0x4f, 0, 0, 0, 0, 0], [0, 0, 0, 0, 0, 0, 0, 0]]
        else if x = 68 then [[0, 0, 0x50, 0, 0, 0, 0, 0], [0, 0, 0, 0, 0, 0, 0, 0]]
        else []) := by
  decide

/-- C1 witness: the amended theorem evaluated at the third byte B (66). -/
theorem C1_escape_third_byte_witness :
    (66 : Nat) < 256 ∧
    process_escape_sequence [27, 91, 66] = ([], 0x51) ∧
    (keyboard_bytes { initState with escape := [27, 91] } [66]).2 =
      [[0, 0, 0x51, 0, 0, 0, 0, 0], [0, 0, 0, 0, 0, 0, 0, 0]] :=
  ⟨by decide,
   by simpa using (C1_escape_third_byte 66 (by decide)).1,
   by simpa using (C1_escape_third_byte 66 (by decide)).2.2⟩

/-- C2 (counterexample): when the bytes ESC, left bracket, A are split
into the chunks [ESC] and [left bracket, A], the lookahead at line 439
fails, so the program emits press and release pairs for the Escape key
(0x29), the left bracket key (0x2f) and the shifted letter A (0x04) --
six reports in total, none of them the claimed single press of the
Up-arrow usage 0x52. -/
theorem C2_counterexample :
    (keyboard_chunks initState [[27], [91, 65]]).2 =
      [[0, 0, 0x29, 0, 0, 0, 0, 0], [0, 0, 0, 0, 0, 0, 0, 0],
       [0, 0, 0x2f, 0, 0, 0, 0, 0], [0, 0, 0, 0, 0, 0, 0, 0],
       [2, 0, 0x04, 0, 0, 0, 0, 0], [0, 0, 0, 0, 0, 0, 0, 0]] ∧
    (keyboard_chunks initState [[27], [91, 65]]).2 ≠
      [[0, 0, 0x52, 0, 0, 0, 0, 0], [0, 0, 0, 0, 0, 0, 0, 0]] := by
  decide

/-- C2 (amended): when ESC and the following left bracket arrive in the
same read chunk -- all three bytes in one chunk, or the split after
ESC left-bracket -- the program emits exactly one press report carrying
usage 0x52 followed by one all-zero release report, with no report for
the partial states; when the chunk boundary falls immediately after ESC,
the in-chunk lookahead fails and the three bytes are instead processed
as the standalone keys Escape, left bracket and shifted A. -/
theorem C2_arrow_chunk_splits :
    (keyboard_chunks initState [[27, 91, 65]]).2 =
      [[0, 0, 0x52, 0, 0, 0, 0, 0], [0, 0, 0, 0, 0, 0, 0, 0]] ∧
    (keyboard_chunks initState [[27, 91], [65]]).2 =
      [[0, 0, 0x52, 0, 0, 0, 0, 0], [0, 0, 0, 0, 0, 0, 0, 0]] ∧
    (keyboard_chunks initState [[27], [91], [65]]).2 =
      [[0, 0, 0x29, 0, 0, 0, 0, 0], [0, 0, 0, 0, 0, 0, 0, 0],
       [0, 0, 0x2f, 0, 0, 0, 0, 0], [0, 0, 0, 0, 0, 0, 0, 0],
       [2, 0, 0x04, 0, 0, 0, 0, 0], [0, 0, 0, 0, 0, 0, 0, 0]] := by
  decide

/-- C4: processing the single byte q (113) from the empty state writes
exactly the press report 00 00 14 00.. followed by the all-zero release
report, and processing Q (81) writes 02 00 14 00.. followed by the same
all-zero release report. -/
theorem C4_q_and_Q_reports :
    (keyboard_bytes initState [113]).2 =
      [[0x00, 0x00, 0x14, 0, 0, 0, 0, 0], [0x00, 0x00, 0, 0, 0, 0, 0, 0]] ∧
    (keyboard_bytes initState [81]).2 =
      [[0x02, 0x00, 0x14, 0, 0, 0, 0, 0], [0x00, 0x00, 0, 0, 0, 0, 0, 0]] := by
  decide

/-- C7: handle_output yields the second payload byte exactly when the
report type is UHID_OUTPUT_REPORT, the length is 2 and the first payload
byte is the LED report id 2; in every other case it yields nothing. -/
theorem C7_handle_output_characterisation (rtype sz : Nat) (data : List Nat) :
    handle_output rtype sz data =
      if rtype = UHID_OUTPUT_REPORT ∧ sz = 2 ∧ data.getD 0 0 = 2
      then some (data.getD 1 0) else none := by
  unfold handle_output
  split_ifs <;> simp_all

/-- C8: a zero-byte read on the device stream makes the dispatch loop
terminate at once (whatever wakeups would have followed), after which
main writes exactly one Destroy event and exits with EXIT_SUCCESS. -/
theorem C8_dev_hup_shutdown (rest : List PollResult) :
    run_main (⟨false, false, false, none, some DevRead.hup⟩ :: rest) =
      some ([UhidWrite.destroyW], EXIT_SUCCESS) := by
  rfl

/-- C9 (counterexample): the report descriptor of the program has 45
bytes, not the 43 bytes stated by the claim. -/
theorem C9_counterexample : rdesc.length = 45 ∧ ¬ rdesc.length = 43 := by
  decide

/-- C9 (amended): the Create event carries exactly the 45 descriptor
bytes enumerated in the specification, with bus USB, vendor 0x15d9,
product 0x0a37, version 0 and country 0. -/
theorem C9_create_fields :
    create_event.rd_data =
      [0x05, 0x01, 0x09, 0x06, 0xa1, 0x01, 0x05, 0x07, 0x19, 0xe0,
       0x29, 0xe7, 0x15, 0x00, 0x25, 0x01, 0x75, 0x01, 0x95, 0x08,
       0x81, 0x02, 0x95, 0x01, 0x75, 0x08, 0x81, 0x01, 0x95, 0x06,
       0x75, 0x08, 0x15, 0x00, 0x25, 0x65, 0x05, 0x07, 0x19, 0x00,
       0x29, 0x65, 0x81, 0x00, 0xc0] ∧
    create_event.rd_size = 45 ∧
    create_event.bus = BUS_USB ∧
    create_event.vendor = 0x15d9 ∧
    create_event.product = 0x0a37 ∧
    create_event.version = 0 ∧
    create_event.country = 0 := by
  decide

set_option maxRecDepth 8000 in
/-- C3: for every byte value, the lowercase and uppercase forms of a
letter map to the same usage code; when a byte is translated in the
normal state, the press report asserts the left-shift bit 0x02 exactly
when the byte is an uppercase ASCII letter and the release report clears
it again; and no report produced by an arrow escape sequence ever
asserts a modifier. -/
theorem C3_shift_synthesis :
    ∀ c : Nat, c < 256 →
      (97 ≤ c ∧ c ≤ 122 → ascii_to_hid c = ascii_to_hid (c - 32)) ∧
      (ascii_to_hid c ≠ 0 →
        (keyboard_bytes initState [c]).2 =
          [[(if 65 ≤ c ∧ c ≤ 90 then 2 else 0), 0, ascii_to_hid c, 0, 0, 0, 0, 0],
           [0, 0, 0, 0, 0, 0, 0, 0]]) ∧
      (∀ r ∈ (keyboard_bytes initState [27, 91, c]).2, r.getD 0 0 = 0) := by
  decide

/-- C3 witness: the letter q (113) against Q (81), and the Up-arrow
press report of the sequence ESC left-bracket A. -/
theorem C3_shift_synthesis_witness :
    ascii_to_hid 113 = ascii_to_hid (113 - 32) ∧
    (keyboard_bytes initState [113]).2 =
      [[(if (65 : Nat) ≤ 113 ∧ (113 : Nat) ≤ 90 then 2 else 0), 0,
        ascii_to_hid 113, 0, 0, 0, 0, 0],
       [0, 0, 0, 0, 0, 0, 0, 0]] ∧
    ([0, 0, 0x52, 0, 0, 0, 0, 0] : List Nat).getD 0 0 = 0 :=
  ⟨(C3_shift_synthesis 113 (by decide)).1 (by decide),
   (C3_shift_synthesis 113 (by decide)).2.1 (by decide),
   (C3_shift_synthesis 65 (by decide)).2.2 [0, 0, 0x52, 0, 0, 0, 0, 0] (by decide)⟩

/-- C5: a press is a no-op when six keys are already held or when the
code is already pressed, and folding presses of more than six distinct
nonzero codes from the empty state leaves exactly six keys pressed. -/
theorem C5_press_capacity (st : KbState) (code : Nat) (l : List Nat) :
    (6 ≤ st.num_keys_pressed → add_key st code = st) ∧
    (code ∈ st.key_codes.take st.num_keys_pressed → add_key st code = st) ∧
    (l.Nodup → (∀ c ∈ l, c ≠ 0) → 6 < l.length →
      (l.foldl add_key initState).num_keys_pressed = 6) := by
  refine ⟨fun h => by simp [add_key, h], fun h => ?_, fun hnd _ hlen => ?_⟩
  · by_cases h6 : 6 ≤ st.num_keys_pressed
    · simp [add_key, h6]
    · simp [add_key, h6, h]
  · rw [foldl_add_key_count l initState rfl (by decide) hnd (by simp [initState])]
    simp only [initState, Nat.zero_add]
    exact Nat.min_eq_right (by omega)

/-- C5 witness: a full tracker drops the seventh press and a duplicate
press, and seven distinct presses from the empty state hold six keys. -/
theorem C5_press_capacity_witness :
    add_key ⟨0, [1, 2, 3, 4, 5, 6], 6, []⟩ 9 = ⟨0, [1, 2, 3, 4, 5, 6], 6, []⟩ ∧
    add_key ⟨0, [1, 2, 3, 4, 5, 6], 6, []⟩ 3 = ⟨0, [1, 2, 3, 4, 5, 6], 6, []⟩ ∧
    ([1, 2, 3, 4, 5, 6, 7].foldl add_key initState).num_keys_pressed = 6 :=
  ⟨(C5_press_capacity ⟨0, [1, 2, 3, 4, 5, 6], 6, []⟩ 9 []).1 (by decide),
   (C5_press_capacity ⟨0, [1, 2, 3, 4, 5, 6], 6, []⟩ 3 []).2.1 (by decide),
   (C5_press_capacity initState 0 [1, 2, 3, 4, 5, 6, 7]).2.2
     (by decide) (by decide) (by decide)⟩

/-- C6: for every tracker state satisfying the invariants (six slots, at
most six distinct nonzero pressed codes, zero-filled trailing slots) and
every code not already pressed while fewer than six keys are held,
pressing and then releasing the code restores the exact prior state,
including the zero-filled vacated slot and the order of the other keys. -/
theorem C6_press_release_roundtrip (st : KbState) (code : Nat)
    (hlen : st.key_codes.length = 6)
    (hnum : st.num_keys_pressed < 6)
    (hnodup : (st.key_codes.take st.num_keys_pressed).Nodup)
    (hnz : ∀ x ∈ st.key_codes.take st.num_keys_pressed, x ≠ 0)
    (htrail : ∀ x ∈ st.key_codes.drop st.num_keys_pressed, x = 0)
    (hmem : code ∉ st.key_codes.take st.num_keys_pressed) :
    remove_key (add_key st code) code = st := by
  obtain ⟨m, l, n, esc⟩ := st
  simp only at hlen hnum hnodup hnz htrail hmem
  have hn6 : ¬ 6 ≤ n := Nat.not_le.mpr hnum
  have hnl : n < l.length := by omega
  have hadd : add_key ⟨m, l, n, esc⟩ code =
      ⟨m, l.set n code, n + 1, esc⟩ := by
    simp [add_key, hn6, hmem]
  rw [hadd]
  have htake : (l.set n code).take (n + 1) = l.take n ++ [code] :=
    take_succ_set l n code hnl
  have hrp : remove_pressed ((l.set n code).take (n + 1)) code = some (l.take n) := by
    rw [htake]; exact remove_pressed_append _ _ hmem
  have hgn : l[n] = 0 := by
    apply htrail
    rw [List.drop_eq_getElem_cons hnl]
    exact List.mem_cons_self _ _
  simp only [remove_key, hrp]
  simp only [drop_succ_set, Nat.add_sub_cancel]
  congr 1
  rw [List.append_assoc]
  have : (0 : Nat) :: l.drop (n + 1) = l.drop n := by
    rw [List.drop_eq_getElem_cons hnl, hgn]
  simp only [List.singleton_append, this, List.take_append_drop]

/-- C6 witness: press then release of code 6 on a tracker holding the
codes 4 and 5. -/
theorem C6_press_release_roundtrip_witness :
    remove_key (add_key ⟨0, [4, 5, 0, 0, 0, 0], 2, []⟩ 6) 6 =
      ⟨0, [4, 5, 0, 0, 0, 0], 2, []⟩ :=
  C6_press_release_roundtrip ⟨0, [4, 5, 0, 0, 0, 0], 2, []⟩ 6
    (by decide) (by decide) (by decide) (by decide) (by decide) (by decide)

/-- C10: from the empty state, every run of the translator leaves the
tracker empty again (no pressed keys, modifier 0, all slots zero), and
the whole write trace consists of press and release pairs in which the
press report carries at most one nonzero key code in bytes 2 to 7 and
the release report is entirely zero. -/
theorem C10_single_key_trace (chunks : List (List Nat)) :
    trackerEmpty (keyboard_chunks initState chunks).1 ∧
    ∃ l : List (Nat × Nat), (keyboard_chunks initState chunks).2 = trace_of l :=
  keyboard_chunks_of_empty chunks initState ⟨rfl, rfl, rfl⟩

end Uhid
